import Mathlib

/-!
Verification of the client-side image-history and edit-orchestration core of
the AI-Origami-Generator application.  The definitions below are a shallow
embedding of the relevant parts of `src/App.tsx` (edit history store, edit
handlers, preset replay), of the batch editor component (job creation, the
bounded worker pool `processImages`), and of the lasso canvas component
(`handleComplete`).  JavaScript numbers used as list indices are modelled as
`Int` (so the sentinel index `-1` is representable); remote model calls and
`dataURLtoFile` conversions, which run inside `try` blocks and may throw, are
modelled by an `Except String File` parameter supplied at the point of the
`await`.
-/

namespace Pixshop

/-- Image artifact, a `File` object in the source.  The control logic never
inspects the image bytes; `name` and `lastModified` are the metadata the
batch editor reads, and `content` stands for the (otherwise opaque) blob so
that distinct files are distinguishable. -/
structure File where
  name : String := ""
  lastModified : Nat := 0
  content : Nat := 0
deriving DecidableEq, Repr

/-- History entry, `type HistoryItem = { file: File; actionDescription?: string }`
in `src/App.tsx`. -/
structure HistoryItem where
  file : File
  actionDescription : Option String := none
deriving DecidableEq, Repr

/-- The slice of the `App` component state that the history and edit
orchestration logic reads and writes: `history`, `historyIndex`, the
in-flight flag `isLoading`, the loading message, the surfaced `error`, the
magic-edit `prompt` and `editHotspot`, the lasso `maskFile`, and the style
transfer `styleImage`. -/
structure EditorState where
  history : List HistoryItem
  historyIndex : Int
  isLoading : Bool
  loadingMessage : String
  error : Option String
  prompt : String
  editHotspot : Option (Int × Int)
  maskFile : Option File
  styleImage : Option File
deriving DecidableEq, Repr

/-- Derived value `currentImage = history[historyIndex]?.file ?? null`.
JavaScript array indexing with a negative index yields `undefined`. -/
def currentImage (s : EditorState) : Option File :=
  if s.historyIndex < 0 then none
  else (s.history.get? s.historyIndex.toNat).map (·.file)

/-- Derived value `canUndo = historyIndex > 0`. -/
def canUndo (s : EditorState) : Bool :=
  0 < s.historyIndex

/-- Derived value `canRedo = historyIndex < history.length - 1`. -/
def canRedo (s : EditorState) : Bool :=
  s.historyIndex < (s.history.length : Int) - 1

/-- The push operation `addImageToHistory` of `src/App.tsx`:
`newHistory = history.slice(0, historyIndex + 1)`, push the new entry, set
`historyIndex = newHistory.length - 1`.  (The source also clears the crop
selection, which is outside the modelled state.) -/
def addImageToHistory (s : EditorState) (newImageFile : File)
    (actionDescription : Option String) : EditorState :=
  let newHistory := s.history.take (s.historyIndex + 1).toNat ++
    [{ file := newImageFile, actionDescription }]
  { s with history := newHistory, historyIndex := (newHistory.length : Int) - 1 }

/-- Undo handler: `if (canUndo) setHistoryIndex(historyIndex - 1)`. -/
def handleUndo (s : EditorState) : EditorState :=
  if canUndo s then { s with historyIndex := s.historyIndex - 1 } else s

/-- Redo handler: `if (canRedo) setHistoryIndex(historyIndex + 1)`. -/
def handleRedo (s : EditorState) : EditorState :=
  if canRedo s then { s with historyIndex := s.historyIndex + 1 } else s

/-- Reset handler: `if (history.length > 0) { setHistoryIndex(0); setError(null); }`. -/
def handleReset (s : EditorState) : EditorState :=
  if 0 < s.history.length then { s with historyIndex := 0, error := none } else s

/-- Exit handler: empties the history, sets the index to `-1` and clears the
transient edit state. -/
def handleExitEditor (s : EditorState) : EditorState :=
  { s with history := [], historyIndex := -1, error := none, prompt := "",
           editHotspot := none }

end Pixshop

namespace Pixshop

/-- Executable model of JavaScript `String.prototype.trim`: strip leading and
trailing whitespace.  (Defined by structural recursion over the character
list so that concrete instances evaluate inside the kernel.) -/
def jsTrim (s : String) : String :=
  String.mk (((s.data.dropWhile Char.isWhitespace).reverse.dropWhile
    Char.isWhitespace).reverse)

/-- Localized-edit handler `handleGenerate`.  Guard:
`if (!currentImage || !prompt.trim() || !editHotspot) return;`.  The
`callResult` parameter stands for the awaited `generateEditedImage` call
composed with `dataURLtoFile` (both run inside the `try` block; a throw
surfaces as `.error` carrying the thrown message).  On success the new file
is pushed and the hotspot is cleared; on failure the error is captured. -/
def handleGenerate (s : EditorState) (callResult : Except String File) : EditorState :=
  if currentImage s = none ∨ jsTrim s.prompt = "" ∨ s.editHotspot = none then s
  else
    let s1 := { s with isLoading := true, error := none,
                       loadingMessage := "Performing localized edit..." }
    match callResult with
    | .ok newImageFile =>
      let s2 := addImageToHistory s1 newImageFile
        (some ("Magic Edit: \"" ++ s.prompt ++ "\""))
      { s2 with editHotspot := none, isLoading := false }
    | .error msg =>
      { s1 with error := some ("Failed to generate the image. " ++ msg),
                isLoading := false }

/-- Filter handler `handleApplyFilter`.  Guard: `if (!currentImage) return;`. -/
def handleApplyFilter (s : EditorState) (filterPrompt : String)
    (callResult : Except String File) : EditorState :=
  if currentImage s = none then s
  else
    let s1 := { s with isLoading := true, error := none,
                       loadingMessage := "Applying creative filter..." }
    match callResult with
    | .ok newImageFile =>
      let s2 := addImageToHistory s1 newImageFile
        (some ("Filter: \"" ++ filterPrompt ++ "\""))
      { s2 with isLoading := false }
    | .error msg =>
      { s1 with error := some ("Failed to apply the filter. " ++ msg),
                isLoading := false }

/-- Adjustment handler `handleApplyAdjustment`.  Guard: `if (!currentImage) return;`. -/
def handleApplyAdjustment (s : EditorState) (adjustmentPrompt : String)
    (callResult : Except String File) : EditorState :=
  if currentImage s = none then s
  else
    let s1 := { s with isLoading := true, error := none,
                       loadingMessage := "Applying adjustment..." }
    match callResult with
    | .ok newImageFile =>
      let s2 := addImageToHistory s1 newImageFile
        (some ("Adjustment: \"" ++ adjustmentPrompt ++ "\""))
      { s2 with isLoading := false }
    | .error msg =>
      { s1 with error := some ("Failed to apply the adjustment. " ++ msg),
                isLoading := false }

/-- Background-removal handler `handleRemoveBackground`. -/
def handleRemoveBackground (s : EditorState) (callResult : Except String File) :
    EditorState :=
  if currentImage s = none then s
  else
    let s1 := { s with isLoading := true, error := none,
                       loadingMessage := "Removing background..." }
    match callResult with
    | .ok newImageFile =>
      let s2 := addImageToHistory s1 newImageFile (some "Remove Background")
      { s2 with isLoading := false }
    | .error msg =>
      { s1 with error := some ("Failed to remove background. " ++ msg),
                isLoading := false }

/-- Upscale handler `handleUpscale`. -/
def handleUpscale (s : EditorState) (callResult : Except String File) : EditorState :=
  if currentImage s = none then s
  else
    let s1 := { s with isLoading := true, error := none,
                       loadingMessage := "Upscaling image..." }
    match callResult with
    | .ok newImageFile =>
      let s2 := addImageToHistory s1 newImageFile (some "Upscale 2x")
      { s2 with isLoading := false }
    | .error msg =>
      { s1 with error := some ("Failed to upscale the image. " ++ msg),
                isLoading := false }

/-- Expand (outpaint) handler `handleExpand`.  Guard:
`if (!currentImage || !currentImageUrl) return;` — `currentImageUrl` is the
object URL derived from `currentImage`, so the guard reduces to the image
being present.  The canvas composition and the `expandImage` call both run
inside the `try` block and are subsumed by `callResult`. -/
def handleExpand (s : EditorState) (expandPrompt : String)
    (callResult : Except String File) : EditorState :=
  if currentImage s = none then s
  else
    let s1 := { s with isLoading := true, error := none,
                       loadingMessage := "Expanding canvas with AI..." }
    match callResult with
    | .ok newImageFile =>
      let s2 := addImageToHistory s1 newImageFile
        (some ("Expand: " ++ (if expandPrompt = "" then "Extend scene" else expandPrompt)))
      { s2 with isLoading := false }
    | .error msg =>
      { s1 with error := some ("Failed to expand the image. " ++ msg),
                isLoading := false }

/-- Style-transfer handler `handleStyleTransfer`.  Guard:
`if (!currentImage || !styleImage) return;`. -/
def handleStyleTransfer (s : EditorState) (callResult : Except String File) :
    EditorState :=
  if currentImage s = none ∨ s.styleImage = none then s
  else
    let styleName := (s.styleImage.map (·.name)).getD ""
    let s1 := { s with isLoading := true, error := none,
                       loadingMessage := "Applying artistic style..." }
    match callResult with
    | .ok newImageFile =>
      let s2 := addImageToHistory s1 newImageFile
        (some ("Style Transfer from " ++ styleName))
      { s2 with isLoading := false }
    | .error msg =>
      { s1 with error := some ("Failed to transfer style. " ++ msg),
                isLoading := false }

/-- Lasso inpaint handler `handleLassoGenerate`.  Guard:
`if (!currentImage || !maskFile || !lassoPrompt.trim()) return;`.  On success
the mask is cleared after use. -/
def handleLassoGenerate (s : EditorState) (lassoPrompt : String)
    (callResult : Except String File) : EditorState :=
  if currentImage s = none ∨ s.maskFile = none ∨ jsTrim lassoPrompt = "" then s
  else
    let s1 := { s with isLoading := true, error := none,
                       loadingMessage := "Applying edit to selected area..." }
    match callResult with
    | .ok newImageFile =>
      let s2 := addImageToHistory s1 newImageFile
        (some ("Lasso Edit: \"" ++ lassoPrompt ++ "\""))
      { s2 with maskFile := none, isLoading := false }
    | .error msg =>
      { s1 with error := some ("Failed to apply lasso edit. " ++ msg),
                isLoading := false }

end Pixshop

namespace Pixshop

/-- Loading-message template `loadingPreset` from `src/i18n.ts`. -/
def loadingPresetTemplate : String :=
  "Applying preset... (Step {currentStep}/{totalSteps})"

/-- Loop body of `handleApplyPreset` in `src/App.tsx`.  `capturedHistory` is
the `history` value captured by the React closure at invocation time: the
in-loop `setHistory` calls do not rebind it, so every
`history.slice(0, i + 1)` slices the pre-replay history.  Each list element
pairs the recorded action prompt with the outcome of the awaited
`generateAdjustedImage` call (composed with `dataURLtoFile`) for that step.
On a failure the loop `break`s with the error set. -/
def applyPresetSteps (capturedHistory : List HistoryItem) (totalSteps : Nat) :
    Nat → List (String × Except String File) → EditorState → EditorState
  | _, [], s => s
  | i, (actionPrompt, res) :: rest, s =>
    let loadingText :=
      (loadingPresetTemplate.replace "{currentStep}" (toString (i + 1))).replace
        "{totalSteps}" (toString totalSteps)
    let s1 := { s with loadingMessage := loadingText }
    match res with
    | .ok newImageFile =>
      let newHistory := capturedHistory.take (i + 1) ++
        [{ file := newImageFile, actionDescription := some ("Preset: " ++ actionPrompt) }]
      applyPresetSteps capturedHistory totalSteps (i + 1) rest
        { s1 with history := newHistory, historyIndex := ((i : Int) + 1) }
    | .error msg =>
      { s1 with error := some ("Failed to apply preset step \"" ++ actionPrompt ++
          "\". " ++ msg) }

/-- Preset replay `handleApplyPreset` of `src/App.tsx`.  Guard:
`if (!originalImage) return;` with `originalImage = history[0]?.file ?? null`.
It first truncates the history to the original entry and rewinds the cursor,
then replays the recorded actions via `applyPresetSteps`, and finally clears
the loading flag. -/
def handleApplyPreset (s : EditorState)
    (actions : List (String × Except String File)) : EditorState :=
  if (s.history.get? 0).map (·.file) = none then s
  else
    let s1 := { s with isLoading := true, error := none,
                       history := s.history.take 1, historyIndex := 0 }
    let s2 := applyPresetSteps s.history actions.length 0 actions s1
    { s2 with isLoading := false }

end Pixshop

namespace Pixshop

/-- C5: pushing onto a history of length `n` at cursor `c` (`0 ≤ c < n`)
truncates to the first `c + 1` entries, appends the new entry, and leaves
length `c + 2` with cursor `c + 1`; entries `0..c` are unchanged and
everything previously beyond the cursor is discarded. -/
theorem addImageToHistory_push_semantics (s : EditorState) (f : File)
    (d : Option String) (hc0 : 0 ≤ s.historyIndex)
    (hcn : s.historyIndex < (s.history.length : Int)) :
    (addImageToHistory s f d).history =
      s.history.take (s.historyIndex.toNat + 1) ++
        [{ file := f, actionDescription := d }] ∧
    (addImageToHistory s f d).history.length = s.historyIndex.toNat + 2 ∧
    (addImageToHistory s f d).historyIndex = s.historyIndex + 1 := by
  have htn : (s.historyIndex + 1).toNat = s.historyIndex.toNat + 1 := by omega
  have hlt : s.historyIndex.toNat + 1 ≤ s.history.length := by omega
  have hlen : (s.history.take (s.historyIndex.toNat + 1)).length =
      s.historyIndex.toNat + 1 := by
    simp [List.length_take, Nat.min_eq_left hlt]
  refine ⟨?_, ?_, ?_⟩
  · simp [addImageToHistory, htn]
  · simp [addImageToHistory, htn, hlen]
  · simp only [addImageToHistory, htn]
    rw [List.length_append, hlen]
    simp
    omega

/-- Witness for C5 at a concrete input: a two-entry history with the cursor
on the first entry; the push discards the redo entry. -/
theorem addImageToHistory_push_semantics_witness :
    (0 : Int) ≤ 0 ∧ (0 : Int) < 2 ∧
    (addImageToHistory
      { history := [{ file := { content := 0 } }, { file := { content := 1 } }],
        historyIndex := 0, isLoading := false, loadingMessage := "",
        error := none, prompt := "", editHotspot := none, maskFile := none,
        styleImage := none } { content := 2 } none).history =
      [{ file := { content := 0 } }].take 1 ++ [{ file := { content := 2 }, actionDescription := none }] := by
  refine ⟨by decide, by decide, ?_⟩
  have h := addImageToHistory_push_semantics
    { history := [{ file := { content := 0 } }, { file := { content := 1 } }],
      historyIndex := 0, isLoading := false, loadingMessage := "",
      error := none, prompt := "", editHotspot := none, maskFile := none,
      styleImage := none } { content := 2 } none (by decide) (by decide)
  rw [h.1]
  decide

end Pixshop

namespace Pixshop

/-- C8: on a non-empty history, `handleReset` rewinds the cursor to `0`
without removing any entry, and the next push truncates to the single
original entry before appending, so the pre-reset entries `1..n` are
unreachable afterwards. -/
theorem reset_then_push_semantics (s : EditorState) (h0 : HistoryItem)
    (rest : List HistoryItem) (hh : s.history = h0 :: rest) (f : File)
    (d : Option String) :
    (handleReset s).historyIndex = 0 ∧
    (handleReset s).history = s.history ∧
    (addImageToHistory (handleReset s) f d).history =
      [h0, { file := f, actionDescription := d }] ∧
    (addImageToHistory (handleReset s) f d).historyIndex = 1 := by
  have hlen : 0 < s.history.length := by simp [hh]
  refine ⟨?_, ?_, ?_, ?_⟩ <;>
    simp [handleReset, addImageToHistory, hh, hlen]

/-- Witness for C8 at a concrete three-entry history with the cursor at the
tip. -/
theorem reset_then_push_semantics_witness :
    ({ history := [{ file := { content := 0 } }, { file := { content := 1 } },
         { file := { content := 2 } }],
       historyIndex := 2, isLoading := false, loadingMessage := "",
       error := none, prompt := "", editHotspot := none, maskFile := none,
       styleImage := none } : EditorState).history =
      { file := { content := 0 } } :: [{ file := { content := 1 } }, { file := { content := 2 } }] ∧
    (addImageToHistory (handleReset
      { history := [{ file := { content := 0 } }, { file := { content := 1 } },
          { file := { content := 2 } }],
        historyIndex := 2, isLoading := false, loadingMessage := "",
        error := none, prompt := "", editHotspot := none, maskFile := none,
        styleImage := none }) { content := 3 } none).history =
      [{ file := { content := 0 } }, { file := { content := 3 }, actionDescription := none }] :=
  ⟨by decide,
   (reset_then_push_semantics _ _ _ rfl { content := 3 } none).2.2.1⟩

end Pixshop

namespace Pixshop

/-- Helper: on a thrown call, every single-image edit handler leaves the
state unchanged except for clearing the loading flag, recording the loading
message of the attempt, and capturing a human-readable error built from the
thrown message. -/
lemma editFailureStates (s : EditorState) (f : File) (hp : Int × Int)
    (mf sf : File) (p lp m : String)
    (himg : currentImage s = some f) (hprompt : jsTrim s.prompt ≠ "")
    (hhot : s.editHotspot = some hp) (hmask : s.maskFile = some mf)
    (hstyle : s.styleImage = some sf) (hlp : jsTrim lp ≠ "") :
    handleGenerate s (.error m) =
      { s with isLoading := false,
               loadingMessage := "Performing localized edit...",
               error := some ("Failed to generate the image. " ++ m) } ∧
    handleApplyFilter s p (.error m) =
      { s with isLoading := false,
               loadingMessage := "Applying creative filter...",
               error := some ("Failed to apply the filter. " ++ m) } ∧
    handleApplyAdjustment s p (.error m) =
      { s with isLoading := false,
               loadingMessage := "Applying adjustment...",
               error := some ("Failed to apply the adjustment. " ++ m) } ∧
    handleRemoveBackground s (.error m) =
      { s with isLoading := false,
               loadingMessage := "Removing background...",
               error := some ("Failed to remove background. " ++ m) } ∧
    handleUpscale s (.error m) =
      { s with isLoading := false,
               loadingMessage := "Upscaling image...",
               error := some ("Failed to upscale the image. " ++ m) } ∧
    handleExpand s p (.error m) =
      { s with isLoading := false,
               loadingMessage := "Expanding canvas with AI...",
               error := some ("Failed to expand the image. " ++ m) } ∧
    handleStyleTransfer s (.error m) =
      { s with isLoading := false,
               loadingMessage := "Applying artistic style...",
               error := some ("Failed to transfer style. " ++ m) } ∧
    handleLassoGenerate s lp (.error m) =
      { s with isLoading := false,
               loadingMessage := "Applying edit to selected area...",
               error := some ("Failed to apply lasso edit. " ++ m) } := by
  refine ⟨?_, ?_, ?_, ?_, ?_, ?_, ?_, ?_⟩
  · simp only [handleGenerate]
    rw [if_neg (by simp [himg, hprompt, hhot])]
  · simp only [handleApplyFilter]
    rw [if_neg (by simp [himg])]
  · simp only [handleApplyAdjustment]
    rw [if_neg (by simp [himg])]
  · simp only [handleRemoveBackground]
    rw [if_neg (by simp [himg])]
  · simp only [handleUpscale]
    rw [if_neg (by simp [himg])]
  · simp only [handleExpand]
    rw [if_neg (by simp [himg])]
  · simp only [handleStyleTransfer]
    rw [if_neg (by simp [himg, hstyle])]
  · simp only [handleLassoGenerate]
    rw [if_neg (by simp [himg, hmask, hlp])]

/-- Helper: on a successful call, every single-image edit handler performs
exactly one history mutation: the truncation-and-append of `addImageToHistory`
with the handler's generated description. -/
lemma editSuccessPush (s : EditorState) (f : File) (hp : Int × Int)
    (mf sf : File) (p lp : String) (g : File)
    (himg : currentImage s = some f) (hprompt : jsTrim s.prompt ≠ "")
    (hhot : s.editHotspot = some hp) (hmask : s.maskFile = some mf)
    (hstyle : s.styleImage = some sf) (hlp : jsTrim lp ≠ "") :
    (handleGenerate s (.ok g)).history =
      s.history.take (s.historyIndex + 1).toNat ++
        [{ file := g, actionDescription := some ("Magic Edit: \"" ++ s.prompt ++ "\"") }] ∧
    (handleApplyFilter s p (.ok g)).history =
      s.history.take (s.historyIndex + 1).toNat ++
        [{ file := g, actionDescription := some ("Filter: \"" ++ p ++ "\"") }] ∧
    (handleApplyAdjustment s p (.ok g)).history =
      s.history.take (s.historyIndex + 1).toNat ++
        [{ file := g, actionDescription := some ("Adjustment: \"" ++ p ++ "\"") }] ∧
    (handleRemoveBackground s (.ok g)).history =
      s.history.take (s.historyIndex + 1).toNat ++
        [{ file := g, actionDescription := some "Remove Background" }] ∧
    (handleUpscale s (.ok g)).history =
      s.history.take (s.historyIndex + 1).toNat ++
        [{ file := g, actionDescription := some "Upscale 2x" }] ∧
    (handleExpand s p (.ok g)).history =
      s.history.take (s.historyIndex + 1).toNat ++
        [{ file := g, actionDescription :=
            some ("Expand: " ++ (if p = "" then "Extend scene" else p)) }] ∧
    (handleStyleTransfer s (.ok g)).history =
      s.history.take (s.historyIndex + 1).toNat ++
        [{ file := g, actionDescription := some ("Style Transfer from " ++ sf.name) }] ∧
    (handleLassoGenerate s lp (.ok g)).history =
      s.history.take (s.historyIndex + 1).toNat ++
        [{ file := g, actionDescription := some ("Lasso Edit: \"" ++ lp ++ "\"") }] := by
  refine ⟨?_, ?_, ?_, ?_, ?_, ?_, ?_, ?_⟩
  · simp only [handleGenerate]
    rw [if_neg (by simp [himg, hprompt, hhot])]
    rfl
  · simp only [handleApplyFilter]
    rw [if_neg (by simp [himg])]
    rfl
  · simp only [handleApplyAdjustment]
    rw [if_neg (by simp [himg])]
    rfl
  · simp only [handleRemoveBackground]
    rw [if_neg (by simp [himg])]
    rfl
  · simp only [handleUpscale]
    rw [if_neg (by simp [himg])]
    rfl
  · simp only [handleExpand]
    rw [if_neg (by simp [himg])]
    rfl
  · simp only [handleStyleTransfer, hstyle]
    rw [if_neg (by simp [himg])]
    rfl
  · simp only [handleLassoGenerate]
    rw [if_neg (by simp [himg, hmask, hlp])]
    rfl

end Pixshop

namespace Pixshop

/-- C4: for every single-image edit operation, a thrown external call leaves
the history store completely unchanged (same entries, same cursor, same
displayed image) while a human-readable message built from the thrown error
is captured; and a successful call mutates the history exactly once, by the
single truncate-and-append push of `addImageToHistory`. -/
theorem edit_failure_leaves_history_unchanged
    (s : EditorState) (f : File) (hp : Int × Int) (mf sf : File)
    (p lp m : String) (g : File)
    (himg : currentImage s = some f) (hprompt : jsTrim s.prompt ≠ "")
    (hhot : s.editHotspot = some hp) (hmask : s.maskFile = some mf)
    (hstyle : s.styleImage = some sf) (hlp : jsTrim lp ≠ "") :
    (∀ t ∈ [handleGenerate s (.error m), handleApplyFilter s p (.error m),
            handleApplyAdjustment s p (.error m), handleRemoveBackground s (.error m),
            handleUpscale s (.error m), handleExpand s p (.error m),
            handleStyleTransfer s (.error m), handleLassoGenerate s lp (.error m)],
        t.history = s.history ∧ t.historyIndex = s.historyIndex ∧
        currentImage t = currentImage s ∧ ∃ pre, t.error = some (pre ++ m)) ∧
    (∀ t ∈ [handleGenerate s (.ok g), handleApplyFilter s p (.ok g),
            handleApplyAdjustment s p (.ok g), handleRemoveBackground s (.ok g),
            handleUpscale s (.ok g), handleExpand s p (.ok g),
            handleStyleTransfer s (.ok g), handleLassoGenerate s lp (.ok g)],
        ∃ d, t.history = s.history.take (s.historyIndex + 1).toNat ++
          [{ file := g, actionDescription := d }]) := by
  obtain ⟨e1, e2, e3, e4, e5, e6, e7, e8⟩ :=
    editFailureStates s f hp mf sf p lp m himg hprompt hhot hmask hstyle hlp
  obtain ⟨k1, k2, k3, k4, k5, k6, k7, k8⟩ :=
    editSuccessPush s f hp mf sf p lp g himg hprompt hhot hmask hstyle hlp
  constructor
  · intro t ht
    simp only [List.mem_cons, List.not_mem_nil, or_false] at ht
    rcases ht with rfl | rfl | rfl | rfl | rfl | rfl | rfl | rfl
    · rw [e1]; exact ⟨rfl, rfl, rfl, _, rfl⟩
    · rw [e2]; exact ⟨rfl, rfl, rfl, _, rfl⟩
    · rw [e3]; exact ⟨rfl, rfl, rfl, _, rfl⟩
    · rw [e4]; exact ⟨rfl, rfl, rfl, _, rfl⟩
    · rw [e5]; exact ⟨rfl, rfl, rfl, _, rfl⟩
    · rw [e6]; exact ⟨rfl, rfl, rfl, _, rfl⟩
    · rw [e7]; exact ⟨rfl, rfl, rfl, _, rfl⟩
    · rw [e8]; exact ⟨rfl, rfl, rfl, _, rfl⟩
  · intro t ht
    simp only [List.mem_cons, List.not_mem_nil, or_false] at ht
    rcases ht with rfl | rfl | rfl | rfl | rfl | rfl | rfl | rfl
    · exact ⟨_, k1⟩
    · exact ⟨_, k2⟩
    · exact ⟨_, k3⟩
    · exact ⟨_, k4⟩
    · exact ⟨_, k5⟩
    · exact ⟨_, k6⟩
    · exact ⟨_, k7⟩
    · exact ⟨_, k8⟩

/-- Concrete single-image session state with every edit precondition
satisfied: one history entry, cursor on it, a prompt, a hotspot, a mask and
a style image. -/
def readyState : EditorState :=
  { history := [{ file := { content := 0 } }], historyIndex := 0,
    isLoading := false, loadingMessage := "", error := none,
    prompt := "make it red", editHotspot := some (3, 4),
    maskFile := some { name := "mask.png" },
    styleImage := some { name := "style.png" } }

/-- Witness for C4: the hypotheses hold in `readyState`, and a failing
adjustment call leaves the history untouched there. -/
theorem edit_failure_leaves_history_unchanged_witness :
    currentImage readyState = some { content := 0 } ∧
    jsTrim readyState.prompt ≠ "" ∧
    readyState.editHotspot = some (3, 4) ∧
    readyState.maskFile = some { name := "mask.png" } ∧
    readyState.styleImage = some { name := "style.png" } ∧
    (jsTrim "fix" ≠ "") ∧
    (handleApplyAdjustment readyState "warm" (.error "boom")).history =
      readyState.history := by
  refine ⟨by decide, by decide, by decide, by decide, by decide, by decide, ?_⟩
  have h := edit_failure_leaves_history_unchanged readyState { content := 0 } (3, 4)
    { name := "mask.png" } { name := "style.png" } "warm" "fix" "boom" { content := 1 }
    (by decide) (by decide) (by decide) (by decide) (by decide) (by decide)
  exact (h.1 (handleApplyAdjustment readyState "warm" (.error "boom"))
    (List.mem_cons_of_mem _ (List.mem_cons_of_mem _ (List.mem_cons_self _ _)))).1

end Pixshop

namespace Pixshop

/-- Session state `readyState` with an edit already in flight
(`isLoading = true`). -/
def pendingState : EditorState := { readyState with isLoading := true }

/-- C3 counterexample: with an edit pending (`isLoading = true`), invoking
the filter handler is neither rejected nor ignored by the handler logic —
it runs to completion and mutates the history.  (The only gating in the
source is the `disabled={isLoading}` attribute on the UI triggers and the
`isLoading` check in the keyboard shortcut listener.) -/
theorem inflight_entry_not_refused :
    pendingState.isLoading = true ∧
    (handleApplyFilter pendingState "Noir" (.ok { content := 9 })).history ≠
      pendingState.history := by
  decide

/-- C3 (amended): while an edit is pending, a new invocation of any edit
handler still proceeds whenever its own data preconditions hold — no handler
consults the in-flight flag, so a successful concurrent call pushes onto the
history cursor captured at its invocation. -/
theorem edit_handlers_ignore_inflight_flag
    (s : EditorState) (f : File) (hp : Int × Int) (mf sf : File)
    (p lp : String) (g : File)
    (hload : s.isLoading = true)
    (himg : currentImage s = some f) (hprompt : jsTrim s.prompt ≠ "")
    (hhot : s.editHotspot = some hp) (hmask : s.maskFile = some mf)
    (hstyle : s.styleImage = some sf) (hlp : jsTrim lp ≠ "") :
    ∀ t ∈ [handleGenerate s (.ok g), handleApplyFilter s p (.ok g),
           handleApplyAdjustment s p (.ok g), handleRemoveBackground s (.ok g),
           handleUpscale s (.ok g), handleExpand s p (.ok g),
           handleStyleTransfer s (.ok g), handleLassoGenerate s lp (.ok g)],
      ∃ d, t.history = s.history.take (s.historyIndex + 1).toNat ++
        [{ file := g, actionDescription := d }] := by
  obtain ⟨k1, k2, k3, k4, k5, k6, k7, k8⟩ :=
    editSuccessPush s f hp mf sf p lp g himg hprompt hhot hmask hstyle hlp
  intro t ht
  simp only [List.mem_cons, List.not_mem_nil, or_false] at ht
  rcases ht with rfl | rfl | rfl | rfl | rfl | rfl | rfl | rfl
  · exact ⟨_, k1⟩
  · exact ⟨_, k2⟩
  · exact ⟨_, k3⟩
  · exact ⟨_, k4⟩
  · exact ⟨_, k5⟩
  · exact ⟨_, k6⟩
  · exact ⟨_, k7⟩
  · exact ⟨_, k8⟩

end Pixshop

namespace Pixshop

/-- Witness for the amended C3 at `pendingState`: isLoading is true, the
preconditions hold, and the filter handler still pushes. -/
theorem edit_handlers_ignore_inflight_flag_witness :
    pendingState.isLoading = true ∧
    currentImage pendingState = some { content := 0 } ∧
    (∃ d, (handleApplyFilter pendingState "Noir" (.ok { content := 9 })).history =
      pendingState.history.take (pendingState.historyIndex + 1).toNat ++
        [{ file := { content := 9 }, actionDescription := d }]) := by
  refine ⟨rfl, by decide, ?_⟩
  exact edit_handlers_ignore_inflight_flag pendingState { content := 0 } (3, 4)
    { name := "mask.png" } { name := "style.png" } "Noir" "fix" { content := 9 }
    rfl (by decide) (by decide) (by decide) (by decide) (by decide) (by decide)
    (handleApplyFilter pendingState "Noir" (.ok { content := 9 }))
    (List.mem_cons_of_mem _ (List.mem_cons_self _ _))

end Pixshop

namespace Pixshop

/-- Fresh single-image session right after an upload: history holds only the
original entry and the cursor is on it. -/
def freshSession : EditorState :=
  { history := [{ file := { content := 0 } }], historyIndex := 0,
    isLoading := false, loadingMessage := "", error := none, prompt := "",
    editHotspot := none, maskFile := none, styleImage := none }

/-- Replay of a two-action preset, both calls succeeding, on a fresh
session. -/
def presetRunBug : EditorState :=
  handleApplyPreset freshSession
    [("warmer", .ok { content := 1 }), ("sharper", .ok { content := 2 })]

/-- C1: the history invariant `0 ≤ cursor < length` is violated by the code.
`handleApplyPreset` slices the stale `history` captured by its closure
(`history.slice(0, i + 1)` caps at the pre-replay length) but sets
`historyIndex` to `i + 1` unconditionally, so replaying a two-step preset on
a fresh one-entry session ends with `historyIndex = 2` on a history of
length 2 — the cursor points past the end and `currentImage` is gone. -/
theorem preset_replay_breaks_history_invariant :
    presetRunBug.history.length = 2 ∧
    presetRunBug.historyIndex = 2 ∧
    ¬ (presetRunBug.historyIndex < (presetRunBug.history.length : Int)) ∧
    currentImage presetRunBug = none := by
  decide

/-- Replay of a three-action preset whose second call fails, on a fresh
session. -/
def presetRunFail : EditorState :=
  handleApplyPreset freshSession
    [("warm", .ok { content := 1 }), ("cool", .error "model refused"),
     ("dark", .ok { content := 3 })]

/-- C2 counterexample: for a 3-action preset failing at step 2, the code
leaves one entry beyond the original (length 2) with the cursor at index 1,
not two entries beyond with the cursor at index 2, and the surfaced error
names the failed step's prompt but not its 1-based position. -/
theorem preset_step2_failure_counterexample :
    presetRunFail.history.length = 2 ∧
    presetRunFail.historyIndex = 1 ∧
    presetRunFail.error = some "Failed to apply preset step \"cool\". model refused" ∧
    ¬ (presetRunFail.history.length - 1 = 2 ∧ presetRunFail.historyIndex = 2) := by
  decide

end Pixshop

namespace Pixshop

/-- C2 (amended): for a preset replay of a 3-action preset whose call for
step 2 fails, the replay stops immediately without rolling back step 1: the
history holds exactly one entry beyond the original (step 1's success), the
cursor is at index 1, and the surfaced error references the failed step's
prompt (its 1-based position appears in the loading message, not in the
error). -/
theorem preset_step2_failure_behavior (s : EditorState) (h0 : HistoryItem)
    (rest : List HistoryItem) (hh : s.history = h0 :: rest)
    (p1 p2 p3 m : String) (f1 : File) (r3 : Except String File) :
    (handleApplyPreset s [(p1, .ok f1), (p2, .error m), (p3, r3)]).history =
      [h0, { file := f1, actionDescription := some ("Preset: " ++ p1) }] ∧
    (handleApplyPreset s [(p1, .ok f1), (p2, .error m), (p3, r3)]).historyIndex = 1 ∧
    (handleApplyPreset s [(p1, .ok f1), (p2, .error m), (p3, r3)]).error =
      some ("Failed to apply preset step \"" ++ p2 ++ "\". " ++ m) ∧
    (handleApplyPreset s [(p1, .ok f1), (p2, .error m), (p3, r3)]).isLoading = false := by
  refine ⟨?_, ?_, ?_, ?_⟩ <;>
  · simp only [handleApplyPreset, hh]
    rw [if_neg (by simp)]
    try simp [applyPresetSteps]

/-- Witness for the amended C2 on a fresh session with concrete prompts and
files. -/
theorem preset_step2_failure_behavior_witness :
    freshSession.history = { file := { content := 0 } } :: [] ∧
    presetRunFail.history =
      [{ file := { content := 0 } },
       { file := { content := 1 }, actionDescription := some ("Preset: " ++ "warm") }] ∧
    presetRunFail.historyIndex = 1 ∧
    presetRunFail.error =
      some ("Failed to apply preset step \"" ++ "cool" ++ "\". " ++ "model refused") := by
  refine ⟨rfl, ?_⟩
  have h := preset_step2_failure_behavior freshSession { file := { content := 0 } } []
    rfl "warm" "cool" "dark" "model refused" { content := 1 } (.ok { content := 3 })
  exact ⟨h.1, h.2.1, h.2.2.1⟩

end Pixshop

namespace Pixshop

/-- Job status in the batch editor:
`type ImageStatus = 'pending' | 'processing' | 'done' | 'error'`. -/
inductive ImageStatus where
  | pending
  | processing
  | done
  | error
deriving DecidableEq, Repr

/-- Batch job:
`type ImageJob = { id, originalFile, processedFile?, status, error? }`. -/
structure ImageJob where
  id : String
  originalFile : File
  processedFile : Option File := none
  status : ImageStatus
  errMsg : Option String := none
deriving DecidableEq, Repr

/-- Job creation in `handleFileSelect`: the id is derived solely from the
file's name and `lastModified` timestamp, and the job starts `pending`. -/
def mkJob (file : File) : ImageJob :=
  { id := file.name ++ "-" ++ toString file.lastModified,
    originalFile := file, status := .pending }

/-- `handleFileSelect` appends one fresh pending job per selected file to the
existing batch: `setImageJobs(prev => [...prev, ...newJobs])`. -/
def handleFileSelect (prev : List ImageJob) (files : List File) : List ImageJob :=
  prev ++ files.map mkJob

/-- Status update at the start of `runJob`:
`prev.map(j => j.id === job.id ? { ...j, status: 'processing' } : j)`. -/
def markProcessing (jobs : List ImageJob) (jid : String) : List ImageJob :=
  jobs.map fun j => if j.id = jid then { j with status := .processing } else j

/-- Status update on a successful `runJob`:
`prev.map(j => j.id === job.id ? { ...j, status: 'done', processedFile: newFile } : j)`. -/
def markDone (jobs : List ImageJob) (jid : String) (newFile : File) : List ImageJob :=
  jobs.map fun j =>
    if j.id = jid then { j with status := .done, processedFile := some newFile } else j

/-- Status update on a failed `runJob`:
`prev.map(j => j.id === job.id ? { ...j, status: 'error', error: message } : j)`. -/
def markError (jobs : List ImageJob) (jid : String) (msg : String) : List ImageJob :=
  jobs.map fun j =>
    if j.id = jid then { j with status := .error, errMsg := some msg } else j

/-- The fixed concurrency constant `CONCURRENT_LIMIT = 3` of `processImages`. -/
abbrev CONCURRENT_LIMIT : Nat := 3

/-- State of one run of `processImages`: the job list (React state), the
shared queue the workers `shift` from, and the three worker slots — `none`
when the worker is between jobs (or finished), `some j` while it is awaiting
the external call for job `j`. -/
structure SchedState where
  jobs : List ImageJob
  queue : List ImageJob
  workers : Fin CONCURRENT_LIMIT → Option ImageJob

/-- Start of a `processImages` run: the queue is
`imageJobs.filter(job => job.status === 'pending' || job.status === 'error')`
and the three workers are idle. -/
def initSched (imageJobs : List ImageJob) : SchedState :=
  { jobs := imageJobs,
    queue := imageJobs.filter fun j =>
      j.status == ImageStatus.pending || j.status == ImageStatus.error,
    workers := fun _ => none }

/-- Small-step semantics of the cooperative worker pool.  Execution is
single-threaded and only suspends at the external call inside `runJob`, so
each atomic step is either: an idle worker shifting the next job off the
queue and marking it `processing` (the synchronous prefix of `runJob`), or
an in-flight worker resuming after its call with a success (`markDone`) or a
throw (`markError`). -/
inductive SchedStep : SchedState → SchedState → Prop where
  | pop (s : SchedState) (w : Fin CONCURRENT_LIMIT) (j : ImageJob)
      (rest : List ImageJob) :
      s.workers w = none → s.queue = j :: rest →
      SchedStep s { jobs := markProcessing s.jobs j.id, queue := rest,
                    workers := Function.update s.workers w (some j) }
  | finishOk (s : SchedState) (w : Fin CONCURRENT_LIMIT) (j : ImageJob)
      (newFile : File) :
      s.workers w = some j →
      SchedStep s { jobs := markDone s.jobs j.id newFile, queue := s.queue,
                    workers := Function.update s.workers w none }
  | finishErr (s : SchedState) (w : Fin CONCURRENT_LIMIT) (j : ImageJob)
      (msg : String) :
      s.workers w = some j →
      SchedStep s { jobs := markError s.jobs j.id msg, queue := s.queue,
                    workers := Function.update s.workers w none }

/-- States observable during a `processImages` run started on `imageJobs`. -/
def SchedReachable (imageJobs : List ImageJob) (s : SchedState) : Prop :=
  Relation.ReflTransGen SchedStep (initSched imageJobs) s

/-- Ids of the jobs currently held by in-flight workers. -/
def inflightIds (s : SchedState) : List String :=
  (List.finRange CONCURRENT_LIMIT).filterMap fun w => (s.workers w).map (·.id)

/-- Number of jobs whose status is `processing`. -/
def countProcessing (jobs : List ImageJob) : Nat :=
  jobs.countP fun j => j.status == ImageStatus.processing

end Pixshop

namespace Pixshop

/-- Membership in `inflightIds` unfolded: an id is in flight exactly when
some worker slot holds a job with that id. -/
lemma mem_inflightIds {s : SchedState} {x : String} :
    x ∈ inflightIds s ↔ ∃ w, ∃ jw, s.workers w = some jw ∧ jw.id = x := by
  simp [inflightIds, Option.map_eq_some']

/-- The status updates of `runJob` never change a job's id. -/
lemma ids_markProcessing (jobs : List ImageJob) (jid : String) :
    (markProcessing jobs jid).map (·.id) = jobs.map (·.id) := by
  simp only [markProcessing, List.map_map]
  refine List.map_congr_left fun j _ => ?_
  by_cases h : j.id = jid <;> simp [h]

/-- The success update of `runJob` never changes a job's id. -/
lemma ids_markDone (jobs : List ImageJob) (jid : String) (g : File) :
    (markDone jobs jid g).map (·.id) = jobs.map (·.id) := by
  simp only [markDone, List.map_map]
  refine List.map_congr_left fun j _ => ?_
  by_cases h : j.id = jid <;> simp [h]

/-- The failure update of `runJob` never changes a job's id. -/
lemma ids_markError (jobs : List ImageJob) (jid : String) (msg : String) :
    (markError jobs jid msg).map (·.id) = jobs.map (·.id) := by
  simp only [markError, List.map_map]
  refine List.map_congr_left fun j _ => ?_
  by_cases h : j.id = jid <;> simp [h]

/-- Scheduler invariant: every job currently in `processing` status has its
id held by some in-flight worker. -/
def SchedInv (s : SchedState) : Prop :=
  ∀ j ∈ s.jobs, j.status = ImageStatus.processing → j.id ∈ inflightIds s

/-- Each atomic scheduler step preserves the invariant. -/
lemma schedStep_preserves_inv {s t : SchedState} (hstep : SchedStep s t)
    (hinv : SchedInv s) : SchedInv t := by
  cases hstep with
  | pop w j rest hw hq =>
    intro j' hj' hp
    obtain ⟨j0, hj0, rfl⟩ := List.mem_map.mp hj'
    rw [mem_inflightIds]
    by_cases h : j0.id = j.id
    · refine ⟨w, j, ?_, ?_⟩
      · simp [Function.update_same]
      · simp [h]
    · have hps : j0.status = ImageStatus.processing := by simpa [h] using hp
      obtain ⟨w', jw, hw', hid⟩ := mem_inflightIds.mp (hinv j0 hj0 hps)
      have hww : w' ≠ w := by
        intro he
        rw [he, hw] at hw'
        exact Option.noConfusion hw'
      exact ⟨w', jw, by simp [Function.update_noteq hww, hw'], by simp [h, hid]⟩
  | finishOk w j g hw =>
    intro j' hj' hp
    obtain ⟨j0, hj0, rfl⟩ := List.mem_map.mp hj'
    by_cases h : j0.id = j.id
    · simp [h] at hp
    · have hps : j0.status = ImageStatus.processing := by simpa [h] using hp
      obtain ⟨w', jw, hw', hid⟩ := mem_inflightIds.mp (hinv j0 hj0 hps)
      have hww : w' ≠ w := by
        intro he
        rw [he, hw] at hw'
        have hjj : jw = j := Option.some.inj hw'.symm
        rw [hjj] at hid
        exact h hid.symm
      rw [mem_inflightIds]
      exact ⟨w', jw, by simp [Function.update_noteq hww, hw'], by simp [h, hid]⟩
  | finishErr w j msg hw =>
    intro j' hj' hp
    obtain ⟨j0, hj0, rfl⟩ := List.mem_map.mp hj'
    by_cases h : j0.id = j.id
    · simp [h] at hp
    · have hps : j0.status = ImageStatus.processing := by simpa [h] using hp
      obtain ⟨w', jw, hw', hid⟩ := mem_inflightIds.mp (hinv j0 hj0 hps)
      have hww : w' ≠ w := by
        intro he
        rw [he, hw] at hw'
        have hjj : jw = j := Option.some.inj hw'.symm
        rw [hjj] at hid
        exact h hid.symm
      rw [mem_inflightIds]
      exact ⟨w', jw, by simp [Function.update_noteq hww, hw'], by simp [h, hid]⟩

end Pixshop

namespace Pixshop

/-- Counting: under the invariant, if all job ids are distinct then at most
`CONCURRENT_LIMIT` jobs can be in `processing` status, because their ids are
distinct and each is held by an in-flight worker slot, of which there are
only three. -/
lemma countProcessing_le_of_inv {s : SchedState} (hinv : SchedInv s)
    (hnodup : (s.jobs.map (·.id)).Nodup) :
    countProcessing s.jobs ≤ CONCURRENT_LIMIT := by
  classical
  have hlenP : countProcessing s.jobs =
      (s.jobs.filter fun j => j.status == ImageStatus.processing).length :=
    List.countP_eq_length_filter _ _
  have hmapsub :
      ((s.jobs.filter fun j => j.status == ImageStatus.processing).map (·.id)) ⊆
        inflightIds s := by
    intro x hx
    obtain ⟨j, hj, rfl⟩ := List.mem_map.mp hx
    have hjmem := List.mem_filter.mp hj
    exact hinv j hjmem.1 (by simpa using hjmem.2)
  have hnodupP :
      ((s.jobs.filter fun j => j.status == ImageStatus.processing).map (·.id)).Nodup :=
    hnodup.sublist ((List.filter_sublist _).map _)
  have hle1 :
      ((s.jobs.filter fun j => j.status == ImageStatus.processing).map (·.id)).length ≤
        (inflightIds s).length :=
    (List.subperm_of_subset hnodupP hmapsub).length_le
  have hle2 : (inflightIds s).length ≤ CONCURRENT_LIMIT := by
    calc (inflightIds s).length ≤ (List.finRange CONCURRENT_LIMIT).length :=
          List.length_filterMap_le _ _
      _ = CONCURRENT_LIMIT := List.length_finRange _
  calc countProcessing s.jobs
      = (s.jobs.filter fun j => j.status == ImageStatus.processing).length := hlenP
    _ = ((s.jobs.filter fun j => j.status == ImageStatus.processing).map (·.id)).length :=
        (List.length_map _ _).symm
    _ ≤ CONCURRENT_LIMIT := le_trans hle1 hle2

/-- C6 (amended): during a `processImages` run started on a batch whose job
ids are pairwise distinct (and with no job already `processing`), at no
reachable state — i.e. at no suspension point of the cooperative worker
pool — are more than `CONCURRENT_LIMIT = 3` jobs in `processing` status. -/
theorem batch_concurrency_bound (imageJobs : List ImageJob) (s : SchedState)
    (hnodup : (imageJobs.map (·.id)).Nodup)
    (hnoproc : ∀ j ∈ imageJobs, j.status ≠ ImageStatus.processing)
    (hreach : SchedReachable imageJobs s) :
    countProcessing s.jobs ≤ CONCURRENT_LIMIT := by
  have key : SchedInv s ∧ s.jobs.map (·.id) = imageJobs.map (·.id) := by
    induction hreach with
    | refl =>
      refine ⟨?_, rfl⟩
      intro j hj hp
      exact absurd hp (hnoproc j hj)
    | tail hab hbc ih =>
      obtain ⟨hinv, hids⟩ := ih
      refine ⟨schedStep_preserves_inv hbc hinv, ?_⟩
      rw [← hids]
      cases hbc <;>
        simp [ids_markProcessing, ids_markDone, ids_markError]
  exact countProcessing_le_of_inv key.1 (key.2 ▸ hnodup)

end Pixshop

namespace Pixshop

/-- Sample batch file `a.png`. -/
def batchFileA : File := { name := "a.png", lastModified := 1, content := 10 }

/-- Sample batch file `b.png`. -/
def batchFileB : File := { name := "b.png", lastModified := 1, content := 11 }

/-- Sample batch file `c.png`. -/
def batchFileC : File := { name := "c.png", lastModified := 1, content := 12 }

/-- Witness for the amended C6: a batch of three distinct files satisfies the
hypotheses, and the bound holds at the initial state of the run. -/
theorem batch_concurrency_bound_witness :
    ((handleFileSelect [] [batchFileA, batchFileB, batchFileC]).map (·.id)).Nodup ∧
    (∀ j ∈ handleFileSelect [] [batchFileA, batchFileB, batchFileC],
      j.status ≠ ImageStatus.processing) ∧
    countProcessing
      (initSched (handleFileSelect [] [batchFileA, batchFileB, batchFileC])).jobs ≤
      CONCURRENT_LIMIT := by
  refine ⟨by decide, by decide, ?_⟩
  exact batch_concurrency_bound _ _ (by decide) (by decide)
    Relation.ReflTransGen.refl

/-- Batch obtained by selecting `a.png`, `b.png`, `c.png` and then `a.png`
again: the first and last job share the id `a.png-1`. -/
def dupJobs : List ImageJob :=
  handleFileSelect [] [batchFileA, batchFileB, batchFileC, batchFileA]

/-- State after worker 0 shifts the first `a.png` job: both jobs with id
`a.png-1` are marked `processing`. -/
def dupS1 : SchedState :=
  { jobs := markProcessing (initSched dupJobs).jobs (mkJob batchFileA).id,
    queue := [mkJob batchFileB, mkJob batchFileC, mkJob batchFileA],
    workers := Function.update (initSched dupJobs).workers 0 (some (mkJob batchFileA)) }

/-- State after worker 1 also shifts the `b.png` job. -/
def dupS2 : SchedState :=
  { jobs := markProcessing dupS1.jobs (mkJob batchFileB).id,
    queue := [mkJob batchFileC, mkJob batchFileA],
    workers := Function.update dupS1.workers 1 (some (mkJob batchFileB)) }

/-- State after worker 2 also shifts the `c.png` job: now four jobs are in
`processing` status while only three workers are in flight. -/
def dupS3 : SchedState :=
  { jobs := markProcessing dupS2.jobs (mkJob batchFileC).id,
    queue := [mkJob batchFileA],
    workers := Function.update dupS2.workers 2 (some (mkJob batchFileC)) }

/-- C6 counterexample: without the distinct-id hypothesis the claimed bound
fails.  Selecting the same file twice yields two jobs with the same id
(`C10`); after the three workers shift the first three queue entries, the
per-id status update has put 4 jobs in `processing` status simultaneously. -/
theorem batch_concurrency_bound_counterexample :
    SchedReachable dupJobs dupS3 ∧
    countProcessing dupS3.jobs = 4 ∧
    ¬ (countProcessing dupS3.jobs ≤ CONCURRENT_LIMIT) := by
  refine ⟨?_, by decide, by decide⟩
  have h1 : SchedStep (initSched dupJobs) dupS1 :=
    SchedStep.pop _ 0 (mkJob batchFileA)
      [mkJob batchFileB, mkJob batchFileC, mkJob batchFileA] (by decide) (by decide)
  have h2 : SchedStep dupS1 dupS2 :=
    SchedStep.pop _ 1 (mkJob batchFileB)
      [mkJob batchFileC, mkJob batchFileA] (by decide) (by decide)
  have h3 : SchedStep dupS2 dupS3 :=
    SchedStep.pop _ 2 (mkJob batchFileC)
      [mkJob batchFileA] (by decide) (by decide)
  exact Relation.ReflTransGen.tail
    (Relation.ReflTransGen.tail (Relation.ReflTransGen.single h1) h2) h3

end Pixshop

namespace Pixshop

/-- C7: a `processImages` run enqueues exactly the jobs whose status is
`pending` or `error`; in particular on a batch where every job is `done` it
enqueues zero jobs, no step can fire, and every reachable state of the run
is the initial one — all statuses and results are left unchanged. -/
theorem processImages_rerun_on_done (imageJobs : List ImageJob)
    (hdone : ∀ j ∈ imageJobs, j.status = ImageStatus.done) :
    (∀ js : List ImageJob, (initSched js).queue = js.filter fun j =>
      j.status == ImageStatus.pending || j.status == ImageStatus.error) ∧
    (initSched imageJobs).queue = [] ∧
    ∀ s, SchedReachable imageJobs s → s = initSched imageJobs := by
  have hq : (initSched imageJobs).queue = [] := by
    simp only [initSched]
    rw [List.filter_eq_nil_iff]
    intro j hj
    simp [hdone j hj]
  refine ⟨fun _ => rfl, hq, ?_⟩
  intro s hs
  induction hs with
  | refl => rfl
  | tail hab hbc ih =>
    rw [ih] at hbc
    cases hbc with
    | pop w j rest hw hqq =>
      rw [hq] at hqq
      exact absurd hqq (by simp)
    | finishOk w j g hw =>
      exact absurd hw (by simp [initSched])
    | finishErr w j msg hw =>
      exact absurd hw (by simp [initSched])

/-- Fully processed one-job batch. -/
def doneJobs : List ImageJob :=
  [{ id := "a.png-1", originalFile := batchFileA, status := ImageStatus.done,
     processedFile := some { name := "edited-a.png" } }]

/-- Witness for C7: on the all-done batch `doneJobs` the hypotheses hold,
the queue is empty, and the initial state is the only reachable one. -/
theorem processImages_rerun_on_done_witness :
    (∀ j ∈ doneJobs, j.status = ImageStatus.done) ∧
    (initSched doneJobs).queue = [] ∧
    initSched doneJobs = initSched doneJobs := by
  refine ⟨by decide, ?_, ?_⟩
  · exact (processImages_rerun_on_done doneJobs (by decide)).2.1
  · exact (processImages_rerun_on_done doneJobs (by decide)).2.2
      (initSched doneJobs) Relation.ReflTransGen.refl

end Pixshop

namespace Pixshop

/-- C10: a job's id is derived solely from the source file's name and
`lastModified` timestamp, so selecting the same file twice creates two
separate jobs with equal ids; every per-job update during processing matches
on id, so all jobs sharing an id transition status together and receive the
same result file; and each duplicate is separately enqueued. -/
theorem duplicate_job_ids (f1 f2 : File) (hn : f1.name = f2.name)
    (hm : f1.lastModified = f2.lastModified)
    (jobs : List ImageJob) (jid : String) (g : File) (msg : String) :
    (mkJob f1).id = (mkJob f2).id ∧
    handleFileSelect [] [f1, f2] = [mkJob f1, mkJob f2] ∧
    (∀ i : Nat, (markProcessing jobs jid).get? i =
      (jobs.get? i).map fun j =>
        if j.id = jid then { j with status := ImageStatus.processing } else j) ∧
    (∀ i : Nat, (markDone jobs jid g).get? i =
      (jobs.get? i).map fun j =>
        if j.id = jid then
          { j with status := ImageStatus.done, processedFile := some g } else j) ∧
    (∀ i : Nat, (markError jobs jid msg).get? i =
      (jobs.get? i).map fun j =>
        if j.id = jid then
          { j with status := ImageStatus.error, errMsg := some msg } else j) ∧
    (initSched (handleFileSelect [] [f1, f2])).queue = [mkJob f1, mkJob f2] := by
  refine ⟨?_, rfl, ?_, ?_, ?_, ?_⟩
  · simp [mkJob, hn, hm]
  · intro i
    simp [markProcessing, List.getElem?_map]
  · intro i
    simp [markDone, List.getElem?_map]
  · intro i
    simp [markError, List.getElem?_map]
  · rfl

/-- The same file metadata as `batchFileA` selected a second time. -/
def batchFileA2 : File := { name := "a.png", lastModified := 1, content := 99 }

/-- Witness for C10 at concrete files sharing name and timestamp. -/
theorem duplicate_job_ids_witness :
    batchFileA.name = batchFileA2.name ∧
    batchFileA.lastModified = batchFileA2.lastModified ∧
    (mkJob batchFileA).id = (mkJob batchFileA2).id ∧
    (markDone dupJobs (mkJob batchFileA).id { name := "out.png" }).get? 0 =
      (dupJobs.get? 0).map fun j =>
        if j.id = (mkJob batchFileA).id then
          { j with status := ImageStatus.done,
                   processedFile := some { name := "out.png" } } else j := by
  refine ⟨by decide, by decide, ?_, ?_⟩
  · exact (duplicate_job_ids batchFileA batchFileA2 (by decide) (by decide)
      dupJobs "x" { name := "out.png" } "m").1
  · exact (duplicate_job_ids batchFileA batchFileA2 (by decide) (by decide)
      dupJobs (mkJob batchFileA).id { name := "out.png" } "m").2.2.2.1 0

end Pixshop

namespace Pixshop

/-- Display-space point collected by the lasso canvas click handler.
JavaScript numbers are modelled as rationals. -/
structure Point where
  x : ℚ
  y : ℚ
deriving DecidableEq, Repr

/-- Mask artifact assembled by `LassoCanvas.handleComplete`: a canvas of the
image's natural size is filled `#000000`, the closed polygon through the
scaled points is path-filled `#FFFFFF`, and the canvas is exported as
`mask.png`.  The `polygon` field records the scaled vertices the white fill
path is built from (the pixelwise fill itself is performed by the browser's
canvas API, outside the repository's code). -/
structure MaskSpec where
  width : ℚ
  height : ℚ
  background : String
  fillColor : String
  polygon : List Point
  filename : String
deriving DecidableEq, Repr

/-- `LassoCanvas.handleComplete`: guard `if (points.length < 3) return;`
(fails closed — the completion is rejected and no mask is produced; the
`Complete Selection` button is likewise disabled below 3 points); otherwise
each display-space point is scaled by `naturalWidth / clientWidth` and
`naturalHeight / clientHeight` and the mask described above is handed to
`onMaskReady`. -/
def handleComplete (points : List Point)
    (naturalWidth naturalHeight clientWidth clientHeight : ℚ) : Option MaskSpec :=
  if points.length < 3 then none
  else
    let scaleX := naturalWidth / clientWidth
    let scaleY := naturalHeight / clientHeight
    some { width := naturalWidth, height := naturalHeight,
           background := "#000000", fillColor := "#FFFFFF",
           polygon := points.map fun p => { x := p.x * scaleX, y := p.y * scaleY },
           filename := "mask.png" }

/-- C9: completing a lasso selection with fewer than 3 points fails closed
and produces no mask, and with at least 3 points it produces a mask at the
image's natural resolution, black background and white fill, whose polygon
is the input points scaled from display to natural coordinates. -/
theorem lasso_mask_requires_three_points (points : List Point)
    (nw nh cw ch : ℚ) :
    (points.length < 3 → handleComplete points nw nh cw ch = none) ∧
    (3 ≤ points.length →
      handleComplete points nw nh cw ch =
        some { width := nw, height := nh,
               background := "#000000", fillColor := "#FFFFFF",
               polygon := points.map fun p =>
                 { x := p.x * (nw / cw), y := p.y * (nh / ch) },
               filename := "mask.png" }) := by
  constructor
  · intro h
    simp [handleComplete, h]
  · intro h
    rw [handleComplete, if_neg (by omega)]

/-- Witness for C9: a 2-point selection yields no mask; a triangle on a
half-scale display yields the natural-size mask with doubled coordinates. -/
theorem lasso_mask_requires_three_points_witness :
    ([⟨0, 0⟩, ⟨4, 0⟩] : List Point).length < 3 ∧
    handleComplete [⟨0, 0⟩, ⟨4, 0⟩] 8 8 4 4 = none ∧
    3 ≤ ([⟨0, 0⟩, ⟨4, 0⟩, ⟨0, 4⟩] : List Point).length ∧
    handleComplete [⟨0, 0⟩, ⟨4, 0⟩, ⟨0, 4⟩] 8 8 4 4 =
      some { width := 8, height := 8,
             background := "#000000", fillColor := "#FFFFFF",
             polygon := ([⟨0, 0⟩, ⟨4, 0⟩, ⟨0, 4⟩] : List Point).map fun p =>
               { x := p.x * (8 / 4), y := p.y * (8 / 4) },
             filename := "mask.png" } := by
  refine ⟨by decide, ?_, by decide, ?_⟩
  · exact (lasso_mask_requires_three_points [⟨0, 0⟩, ⟨4, 0⟩] 8 8 4 4).1 (by decide)
  · exact (lasso_mask_requires_three_points [⟨0, 0⟩, ⟨4, 0⟩, ⟨0, 4⟩] 8 8 4 4).2 (by decide)

end Pixshop
